import Mathlib

/-!
Verification development for the LLRP reader client (`src/llrp/LLRPMain.js`).

The session dispatcher is embedded shallowly: each inbound decoded message is
dispatched to a handler, and a handler execution is recorded as a trace of
micro events (socket writes, assignments to the two sticky session flags, and
tag-observation emissions).  State is recovered from a trace by replaying the
assignment events, which keeps the embedding faithful to the imperative source
while letting theorems quantify over whole traces.

The `process.nextTick` deferral of `handleROAccessReport` is modelled by a
two-phase batch semantics: the synchronous dispatch loop collects the deferred
tag-report messages, which are then run, in order, after the loop finishes.
This matches the Node scheduler: `nextTick` callbacks queued during a `data`
callback run FIFO once the callback returns, before further transport reads.
-/

namespace LLRP

/-- Modelled from the spec: message-type constants consumed by value from
`LLRPMessagesConstants.js`, which is not under `src/`.  The spec calls them a
fixed enumeration; the numeric values are the standard LLRP codes, consistent
with the version/type bytes of the outbound command buffers in the source
(e.g. `bStartRoSpec` starts with bytes 04 16, type 22). -/
def messageC.READER_EVENT_NOTIFICATION : Nat := 63

def messageC.SET_READER_CONFIG_RESPONSE : Nat := 13

def messageC.ADD_ROSPEC_RESPONSE : Nat := 30

def messageC.ENABLE_ROSPEC_RESPONSE : Nat := 34

def messageC.START_ROSPEC_RESPONSE : Nat := 32

def messageC.RO_ACCESS_REPORT : Nat := 61

def messageC.KEEPALIVE : Nat := 62

/-- Modelled from the spec: parameter-type constants consumed by value from
`LLRPParametersConstants.js`, which is not under `src/`; standard LLRP codes. -/
def parameterC.ReaderEventNotificationData : Nat := 246

def parameterC.ROSpecEvent : Nat := 249

def parameterC.TagReportData : Nat := 240

def parameterC.EPC96 : Nat := 13

def parameterC.TagSeenCount : Nat := 8

/-- The two sticky booleans owned by the session
(`isReaderConfigSet`, `isStartROSpecSent` in the source). -/
structure SessionState where
  isReaderConfigSet : Bool
  isStartROSpecSent : Bool
deriving DecidableEq

/-- Modelled from the spec: a decoded sub-parameter as delivered by the
external `decode.js` collaborator — a type code plus raw value bytes. -/
structure SubParameter where
  type : Nat
  value : List Nat
deriving DecidableEq

/-- Modelled from the spec: a decoded parameter (type code, value bytes,
ordered sub-parameters).  The source only ever inspects one nesting level. -/
structure Parameter where
  type : Nat
  value : List Nat
  subParameters : List SubParameter
deriving DecidableEq

/-- Modelled from the spec: a decoded message — its type code together with
the decoded parameter list of its parameter block. -/
structure Message where
  type : Nat
  params : List Parameter
deriving DecidableEq

/-- The tag object built by `handleROAccessReport`. -/
structure Tag where
  tagID : Option String
  tagSeenCount : Nat
deriving DecidableEq

-- The precomputed outbound command buffers of the source, byte for byte.

def bSetReaderConfig : List Nat :=
  [0x04, 0x03, 0x00, 0x00, 0x00, 0x10, 0x00, 0x00, 0x00, 0x00, 0x00, 0x00,
   0xe2, 0x00, 0x05, 0x80]

def bEnableEventsAndReport : List Nat :=
  [0x04, 0x40, 0x00, 0x00, 0x00, 0x0a, 0x00, 0x00, 0x00, 0x00]

def bAddRoSpec : List Nat :=
  [0x04, 0x14, 0x00, 0x00, 0x00, 0x5d, 0x00, 0x00, 0x00, 0x00, 0x00, 0xb1,
   0x00, 0x53, 0x00, 0x00, 0x00, 0x01, 0x00, 0x00, 0x00, 0xb2, 0x00, 0x12,
   0x00, 0xb3, 0x00, 0x05, 0x00, 0x00, 0xb6, 0x00, 0x09, 0x00, 0x00, 0x00,
   0x00, 0x00, 0x00, 0xb7, 0x00, 0x18, 0x00, 0x01, 0x00, 0x00, 0x00, 0xb8,
   0x00, 0x09, 0x01, 0x00, 0x00, 0x03, 0xe8, 0x00, 0xba, 0x00, 0x07, 0x00,
   0x01, 0x01, 0x00, 0xed, 0x00, 0x1f, 0x01, 0x00, 0x00, 0x00, 0xee, 0x00,
   0x0b, 0xff, 0xc0, 0x01, 0x5c, 0x00, 0x05, 0xc0, 0x03, 0xff, 0x00, 0x0d,
   0x00, 0x00, 0x67, 0xba, 0x00, 0x00, 0x00, 0x8e, 0x01]

def bEnableRoSpec : List Nat :=
  [0x04, 0x18, 0x00, 0x00, 0x00, 0x0e, 0x00, 0x00, 0x00, 0x00, 0x00, 0x00,
   0x00, 0x01]

def bStartRoSpec : List Nat :=
  [0x04, 0x16, 0x00, 0x00, 0x00, 0x0e, 0x00, 0x00, 0x00, 0x00, 0x00, 0x00,
   0x00, 0x01]

def bKeepaliveAck : List Nat :=
  [0x04, 0x48, 0x00, 0x00, 0x00, 0x0a, 0x00, 0x00, 0x00, 0x00]

/-- One micro event of a dispatcher execution: a socket write, an assignment
to one of the two session flags, or a `didSeeTag` emission. -/
inductive Ev where
  | write (b : List Nat)
  | setStart (v : Bool)
  | setConfig (v : Bool)
  | emit (t : Tag)
deriving DecidableEq

/-- Effect of one micro event on the session flags. -/
def applyEv (s : SessionState) : Ev → SessionState
  | Ev.setStart v => { s with isStartROSpecSent := v }
  | Ev.setConfig v => { s with isReaderConfigSet := v }
  | Ev.write _ => s
  | Ev.emit _ => s

/-- Session flags after replaying a trace from a starting state. -/
def replay (s : SessionState) (tr : List Ev) : SessionState :=
  tr.foldl applyEv s

/-- The buffers written by a trace, in order. -/
def writesOf (tr : List Ev) : List (List Nat) :=
  tr.filterMap (fun e => match e with | Ev.write b => some b | _ => none)

/-- The helper `mapSubParameters` of the source: fold the sub-parameter sequence into a
lookup from type code to value bytes (later entries overwrite earlier ones,
as assignment to the same object key does in the source). -/
def mapSubParameters (params : Parameter) : Nat → Option (List Nat) :=
  params.subParameters.foldl
    (fun properties sp =>
      fun t => if t = sp.type then some sp.value else properties t)
    (fun _ => none)

/-- Big-endian 16-bit read at offset 0 (readUInt16BE in Node).
(On a buffer shorter than two bytes Node throws; no claim exercises that,
and the embedding reads missing bytes as 0.) -/
def readUInt16BE (b : List Nat) : Nat :=
  256 * (b.get? 0).getD 0 + (b.get? 1).getD 0

/-- One lowercase hex digit, as produced by the Buffer hex encoding. -/
def hexDigit (n : Nat) : Char :=
  if n < 10 then Char.ofNat (48 + n) else Char.ofNat (87 + n)

/-- Hex encoding of a byte buffer (the Buffer toString hex mode of Node):
two lowercase hex digits per byte. -/
def bufToHex (b : List Nat) : String :=
  String.mk (b.flatMap (fun x => [hexDigit (x / 16), hexDigit (x % 16)]))

/-- The body of the `forEach` in `handleROAccessReport`: build the `tag`
object from the flattened sub-parameters of one `TagReportData` parameter. -/
def extractTag (decodedParameters : Parameter) : Tag :=
  let subParameters := mapSubParameters decodedParameters
  { tagID :=
      match subParameters parameterC.EPC96 with
      | some v => some (bufToHex v)
      | none => none
    tagSeenCount :=
      match subParameters parameterC.TagSeenCount with
      | some v => readUInt16BE v
      | none => 0 }

/-- JavaScript truthiness of `tag.tagID` (`null` and the empty string are
falsy, every other string is truthy), as tested by `if (tag.tagID)`. -/
def tagTruthy : Option String → Bool
  | none => false
  | some s => !(s == "")

/-- Whether one decoded parameter makes `handleReaderNotification` call
`resetIsStartROSpecSent`: it is a `ReaderEventNotificationData` parameter
whose flattened sub-parameters hold a `ROSpecEvent` entry whose first byte
(`readUInt8(0)`) equals 1, the end-of-ROSpec sentinel.  (`readUInt8` on an
empty buffer throws in Node; modelled as a failing lookup, which no claim
exercises.) -/
def isCycleEndParam (p : Parameter) : Bool :=
  p.type == parameterC.ReaderEventNotificationData &&
    (match mapSubParameters p parameterC.ROSpecEvent with
     | some v => v.get? 0 == some 1
     | none => false)

/-- Whether the decoded parameter list of a reader-event notification signals
the end of the read-operation cycle. -/
def cycleEnd (params : List Parameter) : Bool :=
  params.any isCycleEndParam

/-- The helper `resetIsStartROSpecSent`: assign false to the start flag. -/
def resetIsStartROSpecSent : List Ev :=
  [Ev.setStart false]

/-- The `for` loop of `handleReaderNotification`: one reset per decoded
parameter that carries the cycle-end evidence. -/
def resetEvents (params : List Parameter) : List Ev :=
  params.flatMap (fun p => if isCycleEndParam p then resetIsStartROSpecSent else [])

/-- The helper `sendStartROSpec`: when the start flag is clear, set it (first) and write
`bStartRoSpec`; otherwise do nothing. -/
def sendStartROSpec (s : SessionState) : List Ev :=
  if s.isStartROSpecSent then []
  else [Ev.setStart true, Ev.write bStartRoSpec]

/-- The handler `handleReaderNotification`: scan the parameters for cycle-end evidence
(resetting the start flag), then either push the global reader configuration
(write before setting the flag, as in the source) or attempt a guarded
start. -/
def handleReaderNotification (s : SessionState) (params : List Parameter) :
    List Ev :=
  let r := resetEvents params
  let s1 := replay s r
  r ++
    (if !s1.isReaderConfigSet then [Ev.write bSetReaderConfig, Ev.setConfig true]
     else sendStartROSpec s1)

/-- The `forEach` of `handleROAccessReport`: one emission per `TagReportData`
parameter whose extracted `tagID` is truthy. -/
def tagReportEvents (params : List Parameter) : List Ev :=
  params.flatMap (fun p =>
    if p.type == parameterC.TagReportData then
      (let t := extractTag p
       if tagTruthy t.tagID then [Ev.emit t] else [])
    else [])

/-- The deferred body of `handleROAccessReport` (the whole handler runs
inside one `process.nextTick`): reset the start flag, then emit the extracted
tags.  The per-tag emissions are themselves `nextTick`-deferred in the source,
but the FIFO queue preserves exactly this order. -/
def handleROAccessReport (m : Message) : List Ev :=
  resetIsStartROSpecSent ++ tagReportEvents m.params

/-- The tags published for a decoded parameter list of a tag report. -/
def publishedTags (params : List Parameter) : List Tag :=
  (tagReportEvents params).filterMap
    (fun e => match e with | Ev.emit t => some t | _ => none)

/-- The `switch` of the `data` callback: the synchronous trace of one message
plus the messages whose handling is deferred to the `nextTick` queue
(`RO_ACCESS_REPORT` defers its whole handler). -/
def dispatchMessage (s : SessionState) (m : Message) :
    List Ev × List Message :=
  if m.type = messageC.READER_EVENT_NOTIFICATION then
    (handleReaderNotification s m.params, [])
  else if m.type = messageC.SET_READER_CONFIG_RESPONSE then
    ([Ev.write bAddRoSpec], [])
  else if m.type = messageC.ADD_ROSPEC_RESPONSE then
    ([Ev.write bEnableRoSpec], [])
  else if m.type = messageC.ENABLE_ROSPEC_RESPONSE then
    (sendStartROSpec s, [])
  else if m.type = messageC.START_ROSPEC_RESPONSE then
    ([Ev.write bEnableEventsAndReport], [])
  else if m.type = messageC.RO_ACCESS_REPORT then
    ([], [m])
  else if m.type = messageC.KEEPALIVE then
    ([Ev.write bKeepaliveAck], [])
  else ([], [])

/-- The synchronous message loop of the `data` callback: dispatch each
decoded message in order, threading the session flags, and collect the
deferred tag-report messages in order. -/
def dispatchLoop (s : SessionState) : List Message → List Ev × List Message
  | [] => ([], [])
  | m :: rest =>
    let td := dispatchMessage s m
    let td2 := dispatchLoop (replay s td.1) rest
    (td.1 ++ td2.1, td.2 ++ td2.2)

/-- Draining the `nextTick` queue after the synchronous loop: the deferred
tag-report handlers run in the order they were queued. -/
def runDeferred : List Message → List Ev
  | [] => []
  | m :: rest => handleROAccessReport m ++ runDeferred rest

/-- Processing one decoded message batch: the synchronous loop followed by
the deferred tag-report handlers. -/
def execBatch (s : SessionState) (msgs : List Message) : List Ev :=
  let td := dispatchLoop s msgs
  td.1 ++ runDeferred td.2

/-- A whole connection: successive transport deliveries, each processed as
one batch from the flags left by the previous one. -/
def execBatches (s : SessionState) : List (List Message) → List Ev
  | [] => []
  | b :: bs =>
    let tr := execBatch s b
    tr ++ execBatches (replay s tr) bs

/-- Result of one `data` callback: the final flags, the trace, and whether
the decoder was invoked on the chunk. -/
structure DataResult where
  state : SessionState
  trace : List Ev
  decodeAttempted : Bool
deriving DecidableEq

/-- The `data` callback (`onData`): a `null`/`undefined` chunk returns before
decoding; any other chunk — the empty one included — is decoded and the
resulting messages are dispatched in order.  The decoder itself is the
external `decode.js` collaborator, passed as a function. -/
def onData (dec : List Nat → List Message) (s : SessionState)
    (data : Option (List Nat)) : DataResult :=
  match data with
  | none => ⟨s, [], false⟩
  | some bytes =>
    let tr := execBatch s (dec bytes)
    ⟨replay s tr, tr, true⟩

/-- The per-message complete action: the synchronous dispatch of one message
followed immediately by its own deferred work.  `specDispatchSeq` below runs
batches as the spec describes them — the action of each message, state
updates included, completing before the action of the next begins. -/
def dispatchMessageFull (s : SessionState) (m : Message) : List Ev :=
  (dispatchMessage s m).1 ++ runDeferred (dispatchMessage s m).2

/-- The batch semantics asserted by the spec (sequential composition of
complete per-message actions), for comparison with `execBatch`. -/
def specDispatchSeq (s : SessionState) : List Message → List Ev
  | [] => []
  | m :: rest =>
    let tr := dispatchMessageFull s m
    tr ++ specDispatchSeq (replay s tr) rest

/-- The constructor configuration object of `llrpMain`: every field the
source reads off `config`, each optional (`config.x || default`). -/
structure Config where
  ipaddress : Option String
  port : Option Nat
  log : Option Bool
  isReaderConfigSet : Option Bool
  isStartROSpecSent : Option Bool

/-- Effective target address: the ipaddress field of the configuration,
defaulted to 192.168.0.30 (the empty string is falsy under the JS
or-default). -/
def effAddress (c : Config) : String :=
  match c.ipaddress with
  | some a => if a = "" then "192.168.0.30" else a
  | none => "192.168.0.30"

/-- Effective target port: the port field of the configuration, defaulted
to 5084 (0 is falsy under the JS or-default). -/
def effPort (c : Config) : Nat :=
  match c.port with
  | some p => if p = 0 then 5084 else p
  | none => 5084

/-- Effective logging flag: the log field of the configuration, defaulted
to false. -/
def effLog (c : Config) : Bool :=
  c.log.getD false

/-- The initial session flags, as read off `config` by the constructor. -/
def initSession (c : Config) : SessionState :=
  ⟨c.isReaderConfigSet.getD false, c.isStartROSpecSent.getD false⟩

/-- The dispatch behaviour of a session built from a configuration. -/
def sessionTrace (c : Config) (batches : List (List Message)) : List Ev :=
  execBatches (initSession c) batches

/-- Whether a message is one of the two that reset the start flag: a
tag-report message, or a reader-event notification carrying cycle-end
evidence. -/
def msgTriggersReset (m : Message) : Bool :=
  m.type == messageC.RO_ACCESS_REPORT ||
    (m.type == messageC.READER_EVENT_NOTIFICATION && cycleEnd m.params)

/-- Occurrence count of a micro event in a trace. -/
def countEv (e : Ev) : List Ev → Nat
  | [] => 0
  | x :: tr => (if x = e then 1 else 0) + countEv e tr

/-- Character class of the lowercase hex alphabet 0-9, a-f. -/
def isHexLowerChar (ch : Char) : Bool :=
  (48 ≤ ch.toNat && ch.toNat ≤ 57) || (97 ≤ ch.toNat && ch.toNat ≤ 102)

/-- The flag discipline every dispatcher trace obeys, indexed by the session
flags current at its head.  It captures how the source manipulates the two
sticky booleans: a start-spec write occurs only as the pair set-flag-then-
write with the start flag clear beforehand (the guarded `sendStartROSpec`);
a configure-reader write occurs only with the config flag clear and is
immediately followed by setting it; the config flag is never cleared; the
start flag is set only by that pair and cleared only by reset events. -/
inductive Wf : SessionState → List Ev → Prop where
  | nil (s : SessionState) : Wf s []
  | emit (s : SessionState) (t : Tag) (tr : List Ev) :
      Wf s tr → Wf s (Ev.emit t :: tr)
  | writeOther (s : SessionState) (b : List Nat) (tr : List Ev) :
      b ≠ bStartRoSpec → b ≠ bSetReaderConfig →
      Wf s tr → Wf s (Ev.write b :: tr)
  | reset (s : SessionState) (tr : List Ev) :
      Wf { s with isStartROSpecSent := false } tr →
      Wf s (Ev.setStart false :: tr)
  | start (s : SessionState) (tr : List Ev) :
      s.isStartROSpecSent = false →
      Wf { s with isStartROSpecSent := true } tr →
      Wf s (Ev.setStart true :: Ev.write bStartRoSpec :: tr)
  | config (s : SessionState) (tr : List Ev) :
      s.isReaderConfigSet = false →
      Wf { s with isReaderConfigSet := true } tr →
      Wf s (Ev.write bSetReaderConfig :: Ev.setConfig true :: tr)

theorem replay_nil (s : SessionState) : replay s [] = s := rfl

theorem replay_cons (s : SessionState) (e : Ev) (tr : List Ev) :
    replay s (e :: tr) = replay (applyEv s e) tr := rfl

theorem replay_append (s : SessionState) (t1 t2 : List Ev) :
    replay s (t1 ++ t2) = replay (replay s t1) t2 := by
  simp [replay, List.foldl_append]

theorem wf_append : ∀ {s : SessionState} {t1 t2 : List Ev},
    Wf s t1 → Wf (replay s t1) t2 → Wf s (t1 ++ t2) := by
  intro s t1 t2 h1
  induction h1 with
  | nil s => intro h2; simpa [replay] using h2
  | emit s t tr _ ih =>
    intro h2
    exact Wf.emit s t _ (ih (by simpa [replay_cons, applyEv] using h2))
  | writeOther s b tr hb1 hb2 _ ih =>
    intro h2
    exact Wf.writeOther s b _ hb1 hb2 (ih (by simpa [replay_cons, applyEv] using h2))
  | reset s tr _ ih =>
    intro h2
    exact Wf.reset s _ (ih (by simpa [replay_cons, applyEv] using h2))
  | start s tr hf _ ih =>
    intro h2
    exact Wf.start s _ hf (ih (by simpa [replay_cons, applyEv] using h2))
  | config s tr hf _ ih =>
    intro h2
    exact Wf.config s _ hf (ih (by simpa [replay_cons, applyEv] using h2))

theorem wf_of_all_reset : ∀ {l : List Ev},
    (∀ e ∈ l, e = Ev.setStart false) → ∀ s, Wf s l := by
  intro l
  induction l with
  | nil => intro _ s; exact Wf.nil s
  | cons e l ih =>
    intro h s
    have he : e = Ev.setStart false := h e (List.mem_cons_self e l)
    subst he
    exact Wf.reset s l (ih (fun x hx => h x (List.mem_cons_of_mem _ hx)) _)

theorem wf_of_all_emit : ∀ {l : List Ev},
    (∀ e ∈ l, ∃ t, e = Ev.emit t) → ∀ s, Wf s l := by
  intro l
  induction l with
  | nil => intro _ s; exact Wf.nil s
  | cons e l ih =>
    intro h s
    obtain ⟨t, rfl⟩ := h e (List.mem_cons_self e l)
    exact Wf.emit s t l (ih (fun x hx => h x (List.mem_cons_of_mem _ hx)) s)

theorem replay_all_reset : ∀ {l : List Ev},
    (∀ e ∈ l, e = Ev.setStart false) → ∀ s : SessionState,
    replay s l = if l = [] then s else { s with isStartROSpecSent := false } := by
  intro l
  induction l with
  | nil => intro _ s; simp [replay]
  | cons e l ih =>
    intro h s
    have he : e = Ev.setStart false := h e (List.mem_cons_self e l)
    subst he
    rw [replay_cons]
    simp only [applyEv]
    rw [ih (fun x hx => h x (List.mem_cons_of_mem _ hx))]
    cases l <;> simp

theorem replay_all_emit : ∀ {l : List Ev},
    (∀ e ∈ l, ∃ t, e = Ev.emit t) → ∀ s : SessionState, replay s l = s := by
  intro l
  induction l with
  | nil => intro _ s; rfl
  | cons e l ih =>
    intro h s
    obtain ⟨t, rfl⟩ := h e (List.mem_cons_self e l)
    rw [replay_cons]
    simp only [applyEv]
    exact ih (fun x hx => h x (List.mem_cons_of_mem _ hx)) s

theorem resetEvents_all {params : List Parameter} :
    ∀ e ∈ resetEvents params, e = Ev.setStart false := by
  intro e he
  simp only [resetEvents, List.mem_flatMap] at he
  obtain ⟨p, _, he⟩ := he
  by_cases h : isCycleEndParam p
  · simpa [h, resetIsStartROSpecSent] using he
  · simp [h] at he

theorem resetEvents_eq_nil_iff {params : List Parameter} :
    resetEvents params = [] ↔ cycleEnd params = false := by
  induction params with
  | nil => simp [resetEvents, cycleEnd]
  | cons p ps ih =>
    by_cases h : isCycleEndParam p
    · simp [resetEvents, cycleEnd, h, resetIsStartROSpecSent]
    · simpa [resetEvents, cycleEnd, h] using ih

theorem tagReportEvents_all {params : List Parameter} :
    ∀ e ∈ tagReportEvents params, ∃ t, e = Ev.emit t := by
  intro e he
  simp only [tagReportEvents, List.mem_flatMap] at he
  obtain ⟨p, _, he⟩ := he
  by_cases h1 : p.type == parameterC.TagReportData
  · by_cases h2 : tagTruthy (extractTag p).tagID
    · exact ⟨extractTag p, by simpa [h1, h2] using he⟩
    · simp [h1, h2] at he
  · simp [h1] at he

theorem wf_sendStartROSpec (s : SessionState) : Wf s (sendStartROSpec s) := by
  cases hs : s.isStartROSpecSent
  · simp only [sendStartROSpec, hs]
    exact Wf.start s [] hs (Wf.nil _)
  · simp only [sendStartROSpec, hs]
    exact Wf.nil s

theorem wf_handleReaderNotification (s : SessionState) (params : List Parameter) :
    Wf s (handleReaderNotification s params) := by
  unfold handleReaderNotification
  apply wf_append (wf_of_all_reset resetEvents_all s)
  cases hc : (replay s (resetEvents params)).isReaderConfigSet
  · show Wf _ [Ev.write bSetReaderConfig, Ev.setConfig true]
    exact Wf.config _ [] hc (Wf.nil _)
  · show Wf _ (sendStartROSpec _)
    exact wf_sendStartROSpec _

theorem wf_handleROAccessReport (s : SessionState) (m : Message) :
    Wf s (handleROAccessReport m) := by
  show Wf s (Ev.setStart false :: tagReportEvents m.params)
  exact Wf.reset s _ (wf_of_all_emit tagReportEvents_all _)

theorem wf_dispatchMessage (s : SessionState) (m : Message) :
    Wf s (dispatchMessage s m).1 := by
  unfold dispatchMessage
  split_ifs with h1 h2 h3 h4 h5 h6 h7
  · exact wf_handleReaderNotification s m.params
  · exact Wf.writeOther s bAddRoSpec [] (by decide) (by decide) (Wf.nil _)
  · exact Wf.writeOther s bEnableRoSpec [] (by decide) (by decide) (Wf.nil _)
  · exact wf_sendStartROSpec s
  · exact Wf.writeOther s bEnableEventsAndReport [] (by decide) (by decide) (Wf.nil _)
  · exact Wf.nil s
  · exact Wf.writeOther s bKeepaliveAck [] (by decide) (by decide) (Wf.nil _)
  · exact Wf.nil s

theorem wf_dispatchLoop (msgs : List Message) : ∀ s : SessionState,
    Wf s (dispatchLoop s msgs).1 := by
  induction msgs with
  | nil => intro s; exact Wf.nil s
  | cons m rest ih =>
    intro s
    simp only [dispatchLoop]
    exact wf_append (wf_dispatchMessage s m) (ih _)

theorem wf_runDeferred (msgs : List Message) : ∀ s : SessionState,
    Wf s (runDeferred msgs) := by
  induction msgs with
  | nil => intro s; exact Wf.nil s
  | cons m rest ih =>
    intro s
    simp only [runDeferred]
    exact wf_append (wf_handleROAccessReport s m) (ih _)

theorem wf_execBatch (s : SessionState) (msgs : List Message) :
    Wf s (execBatch s msgs) := by
  unfold execBatch
  exact wf_append (wf_dispatchLoop msgs s) (wf_runDeferred _ _)

theorem wf_execBatches (batches : List (List Message)) : ∀ s : SessionState,
    Wf s (execBatches s batches) := by
  induction batches with
  | nil => intro s; exact Wf.nil s
  | cons b bs ih =>
    intro s
    simp only [execBatches]
    exact wf_append (wf_execBatch s b) (ih _)

theorem wf_start_write_shape {s : SessionState} {tr : List Ev} (h : Wf s tr) :
    ∀ i, tr[i]? = some (Ev.write bStartRoSpec) →
      ∃ j, i = j + 1 ∧ tr[j]? = some (Ev.setStart true) ∧
        (replay s (tr.take j)).isStartROSpecSent = false := by
  induction h with
  | nil s => intro i hi; simp at hi
  | emit s t tr _ ih =>
    intro i hi
    match i with
    | 0 => simp at hi
    | n + 1 =>
      obtain ⟨j, hj, h1, h2⟩ := ih n (by simpa using hi)
      exact ⟨j + 1, by omega, by simpa using h1,
        by simpa [List.take_succ_cons, replay_cons, applyEv] using h2⟩
  | writeOther s b tr hb1 _ _ ih =>
    intro i hi
    match i with
    | 0 =>
      exfalso
      have hb : b = bStartRoSpec := by simpa using hi
      exact hb1 hb
    | n + 1 =>
      obtain ⟨j, hj, h1, h2⟩ := ih n (by simpa using hi)
      exact ⟨j + 1, by omega, by simpa using h1,
        by simpa [List.take_succ_cons, replay_cons, applyEv] using h2⟩
  | reset s tr _ ih =>
    intro i hi
    match i with
    | 0 => simp at hi
    | n + 1 =>
      obtain ⟨j, hj, h1, h2⟩ := ih n (by simpa using hi)
      exact ⟨j + 1, by omega, by simpa using h1,
        by simpa [List.take_succ_cons, replay_cons, applyEv] using h2⟩
  | start s tr hf _ ih =>
    intro i hi
    match i with
    | 0 => simp at hi
    | 1 => exact ⟨0, rfl, by simp, by simpa [replay] using hf⟩
    | n + 2 =>
      obtain ⟨j, hj, h1, h2⟩ := ih n (by simpa using hi)
      refine ⟨j + 2, by omega, by simpa using h1, ?_⟩
      simpa [List.take_succ_cons, replay_cons, applyEv] using h2
  | config s tr hf _ ih =>
    intro i hi
    match i with
    | 0 =>
      exfalso
      have hb : bSetReaderConfig = bStartRoSpec := by simpa using hi
      exact absurd hb (by decide)
    | 1 => simp at hi
    | n + 2 =>
      obtain ⟨j, hj, h1, h2⟩ := ih n (by simpa using hi)
      refine ⟨j + 2, by omega, by simpa using h1, ?_⟩
      simpa [List.take_succ_cons, replay_cons, applyEv] using h2

theorem wf_start_needs_reset {s : SessionState} {tr : List Ev} (h : Wf s tr) :
    s.isStartROSpecSent = true →
    ∀ m : Nat, tr[m]? = some (Ev.write bStartRoSpec) →
      ∃ k : Nat, k < m ∧ tr[k]? = some (Ev.setStart false) := by
  induction h with
  | nil s => intro _ m hm; simp at hm
  | emit s t tr _ ih =>
    intro hs m hm
    match m with
    | 0 => simp at hm
    | n + 1 =>
      obtain ⟨k, hk1, hk2⟩ := ih hs n (by simpa using hm)
      exact ⟨k + 1, by omega, by simpa using hk2⟩
  | writeOther s b tr hb1 _ _ ih =>
    intro hs m hm
    match m with
    | 0 => exact absurd (by simpa using hm) hb1
    | n + 1 =>
      obtain ⟨k, hk1, hk2⟩ := ih hs n (by simpa using hm)
      exact ⟨k + 1, by omega, by simpa using hk2⟩
  | reset s tr _ _ =>
    intro _ m hm
    match m with
    | 0 => simp at hm
    | n + 1 => exact ⟨0, by omega, by simp⟩
  | start s tr hf _ _ =>
    intro hs _ _
    exact absurd hs (by simp [hf])
  | config s tr hf _ ih =>
    intro hs m hm
    match m with
    | 0 =>
      exact absurd (by simpa using hm) (by decide : ¬ bSetReaderConfig = bStartRoSpec)
    | 1 => simp at hm
    | n + 2 =>
      obtain ⟨k, hk1, hk2⟩ := ih (by simpa using hs) n (by simpa using hm)
      exact ⟨k + 2, by omega, by simpa using hk2⟩

theorem wf_dedup {s : SessionState} {tr : List Ev} (h : Wf s tr) :
    ∀ i j : Nat, i < j → tr[i]? = some (Ev.write bStartRoSpec) →
      tr[j]? = some (Ev.write bStartRoSpec) →
      ∃ k : Nat, i < k ∧ k < j ∧ tr[k]? = some (Ev.setStart false) := by
  induction h with
  | nil s => intro i j _ hi _; simp at hi
  | emit s t tr _ ih =>
    intro i j hij hi hj
    match i, j with
    | 0, _ => simp at hi
    | _ + 1, 0 => omega
    | n + 1, m + 1 =>
      obtain ⟨k, h1, h2, h3⟩ :=
        ih n m (by omega) (by simpa using hi) (by simpa using hj)
      exact ⟨k + 1, by omega, by omega, by simpa using h3⟩
  | writeOther s b tr hb1 _ _ ih =>
    intro i j hij hi hj
    match i, j with
    | 0, _ => exact absurd (by simpa using hi) hb1
    | _ + 1, 0 => omega
    | n + 1, m + 1 =>
      obtain ⟨k, h1, h2, h3⟩ :=
        ih n m (by omega) (by simpa using hi) (by simpa using hj)
      exact ⟨k + 1, by omega, by omega, by simpa using h3⟩
  | reset s tr _ ih =>
    intro i j hij hi hj
    match i, j with
    | 0, _ => simp at hi
    | _ + 1, 0 => omega
    | n + 1, m + 1 =>
      obtain ⟨k, h1, h2, h3⟩ :=
        ih n m (by omega) (by simpa using hi) (by simpa using hj)
      exact ⟨k + 1, by omega, by omega, by simpa using h3⟩
  | start s tr hf hsub ih =>
    intro i j hij hi hj
    match i, j with
    | 0, _ => simp at hi
    | 1, 0 | 1, 1 => omega
    | 1, m + 2 =>
      obtain ⟨k, h1, h2⟩ :=
        wf_start_needs_reset hsub (by simp) m (by simpa using hj)
      exact ⟨k + 2, by omega, by omega, by simpa using h2⟩
    | n + 2, 0 | n + 2, 1 => omega
    | n + 2, m + 2 =>
      obtain ⟨k, h1, h2, h3⟩ :=
        ih n m (by omega) (by simpa using hi) (by simpa using hj)
      exact ⟨k + 2, by omega, by omega, by simpa using h3⟩
  | config s tr hf _ ih =>
    intro i j hij hi hj
    match i, j with
    | 0, _ =>
      exact absurd (by simpa using hi) (by decide : ¬ bSetReaderConfig = bStartRoSpec)
    | 1, _ => simp at hi
    | n + 2, 0 | n + 2, 1 => omega
    | n + 2, m + 2 =>
      obtain ⟨k, h1, h2, h3⟩ :=
        ih n m (by omega) (by simpa using hi) (by simpa using hj)
      exact ⟨k + 2, by omega, by omega, by simpa using h3⟩

theorem countEv_wf_no_unsetConfig {s : SessionState} {tr : List Ev} (h : Wf s tr) :
    countEv (Ev.setConfig false) tr = 0 := by
  induction h with
  | nil s => rfl
  | emit s t tr _ ih => simpa [countEv] using ih
  | writeOther s b tr _ _ _ ih => simpa [countEv] using ih
  | reset s tr _ ih => simpa [countEv] using ih
  | start s tr _ _ ih => simpa [countEv] using ih
  | config s tr _ _ ih => simpa [countEv] using ih

theorem countEv_wf_setConfig {s : SessionState} {tr : List Ev} (h : Wf s tr) :
    countEv (Ev.setConfig true) tr ≤ (if s.isReaderConfigSet then 0 else 1) := by
  induction h with
  | nil s => simp [countEv]
  | emit s t tr _ ih => simpa [countEv] using ih
  | writeOther s b tr _ _ _ ih => simpa [countEv] using ih
  | reset s tr _ ih => simpa [countEv] using ih
  | start s tr _ _ ih => simpa [countEv] using ih
  | config s tr hf _ ih =>
    have ih2 : countEv (Ev.setConfig true) tr = 0 := by simpa using ih
    simp [countEv, hf, ih2]

theorem countEv_wf_writeConfig {s : SessionState} {tr : List Ev} (h : Wf s tr) :
    countEv (Ev.write bSetReaderConfig) tr ≤ (if s.isReaderConfigSet then 0 else 1) := by
  induction h with
  | nil s => simp [countEv]
  | emit s t tr _ ih => simpa [countEv] using ih
  | writeOther s b tr _ hb2 _ ih => simpa [countEv, hb2] using ih
  | reset s tr _ ih => simpa [countEv] using ih
  | start s tr _ _ ih =>
    have hne : bStartRoSpec ≠ bSetReaderConfig := by decide
    simpa [countEv, hne] using ih
  | config s tr hf _ ih =>
    have ih2 : countEv (Ev.write bSetReaderConfig) tr = 0 := by simpa using ih
    simp [countEv, hf, ih2]

theorem sendStartROSpec_no_reset (s : SessionState) :
    Ev.setStart false ∉ sendStartROSpec s := by
  unfold sendStartROSpec
  cases hs : s.isStartROSpecSent <;> simp

theorem handleReaderNotification_no_reset {params : List Parameter}
    (h : cycleEnd params = false) (s : SessionState) :
    Ev.setStart false ∉ handleReaderNotification s params := by
  unfold handleReaderNotification
  rw [resetEvents_eq_nil_iff.mpr h]
  simp only [replay_nil, List.nil_append]
  cases hx : s.isReaderConfigSet
  · simp
  · simpa using sendStartROSpec_no_reset s

theorem dispatchMessage_no_reset {m : Message}
    (h : msgTriggersReset m = false) (s : SessionState) :
    Ev.setStart false ∉ (dispatchMessage s m).1 ∧ (dispatchMessage s m).2 = [] := by
  unfold dispatchMessage
  split_ifs with h1 h2 h3 h4 h5 h6 h7
  · have hce : cycleEnd m.params = false := by
      simpa [msgTriggersReset, h1, messageC.READER_EVENT_NOTIFICATION,
        messageC.RO_ACCESS_REPORT] using h
    exact ⟨handleReaderNotification_no_reset hce s, rfl⟩
  · exact ⟨by simp, rfl⟩
  · exact ⟨by simp, rfl⟩
  · exact ⟨sendStartROSpec_no_reset s, rfl⟩
  · exact ⟨by simp, rfl⟩
  · exact absurd h (by simp [msgTriggersReset, h6, messageC.RO_ACCESS_REPORT])
  · exact ⟨by simp, rfl⟩
  · exact ⟨by simp, rfl⟩

theorem dispatchLoop_no_reset {msgs : List Message}
    (h : ∀ m ∈ msgs, msgTriggersReset m = false) : ∀ s : SessionState,
    Ev.setStart false ∉ (dispatchLoop s msgs).1 ∧ (dispatchLoop s msgs).2 = [] := by
  induction msgs with
  | nil => intro s; simp [dispatchLoop]
  | cons m rest ih =>
    intro s
    obtain ⟨h1, h2⟩ := dispatchMessage_no_reset (h m (List.mem_cons_self m rest)) s
    obtain ⟨h3, h4⟩ := ih (fun x hx => h x (List.mem_cons_of_mem _ hx)) (replay s (dispatchMessage s m).1)
    simp only [dispatchLoop]
    constructor
    · intro hmem
      rcases List.mem_append.mp hmem with hA | hB
      · exact h1 hA
      · exact h3 hB
    · simp [h2, h4]

theorem execBatch_no_reset {msgs : List Message}
    (h : ∀ m ∈ msgs, msgTriggersReset m = false) (s : SessionState) :
    Ev.setStart false ∉ execBatch s msgs := by
  obtain ⟨h1, h2⟩ := dispatchLoop_no_reset h s
  show Ev.setStart false ∉ (dispatchLoop s msgs).1 ++ runDeferred (dispatchLoop s msgs).2
  rw [h2]
  intro hmem
  rcases List.mem_append.mp hmem with hA | hB
  · exact h1 hA
  · simp [runDeferred] at hB

theorem execBatches_no_reset {batches : List (List Message)}
    (h : ∀ b ∈ batches, ∀ m ∈ b, msgTriggersReset m = false) : ∀ s : SessionState,
    Ev.setStart false ∉ execBatches s batches := by
  induction batches with
  | nil => intro s; simp [execBatches]
  | cons b bs ih =>
    intro s
    simp only [execBatches]
    intro hmem
    rcases List.mem_append.mp hmem with hA | hB
    · exact execBatch_no_reset (h b (List.mem_cons_self b bs)) s hA
    · exact ih (fun x hx => h x (List.mem_cons_of_mem _ hx)) _ hB

/-- C1: start-command deduplication.  Over any sequence of transport
deliveries dispatched on one connection: (i) a start-read-spec command is
written only as the pair set-flag-then-write, with `isStartROSpecSent`
false immediately before the pair (the write happens only when the guard
saw the flag false, and the flag is set true before the write); (ii)
between any two start-read-spec writes the flag is cleared in between, so
at most one start command is sent while the flag is continuously true;
(iii) the flag is cleared only by processing a tag-report message or a
cycle-end reader-event notification — if no such message is delivered, no
clearing event occurs at all. -/
theorem C1_start_dedup (s : SessionState) (batches : List (List Message)) :
    (∀ i : Nat, (execBatches s batches)[i]? = some (Ev.write bStartRoSpec) →
      ∃ j : Nat, i = j + 1 ∧
        (execBatches s batches)[j]? = some (Ev.setStart true) ∧
        (replay s ((execBatches s batches).take j)).isStartROSpecSent = false) ∧
    (∀ i j : Nat, i < j →
      (execBatches s batches)[i]? = some (Ev.write bStartRoSpec) →
      (execBatches s batches)[j]? = some (Ev.write bStartRoSpec) →
      ∃ k : Nat, i < k ∧ k < j ∧
        (execBatches s batches)[k]? = some (Ev.setStart false)) ∧
    ((∀ b ∈ batches, ∀ m ∈ b, msgTriggersReset m = false) →
      Ev.setStart false ∉ execBatches s batches) :=
  ⟨wf_start_write_shape (wf_execBatches batches s),
   wf_dedup (wf_execBatches batches s),
   fun h => execBatches_no_reset h s⟩

/-- Witness for C1: on the delivery sequence enable-read-spec-response,
tag-report, enable-read-spec-response (config already pushed), the two
start-read-spec writes sit at trace positions 1 and 4, and the dedup
clause produces the flag-clearing event strictly between them. -/
theorem C1_start_dedup_witness :
    ∃ k : Nat, 1 < k ∧ k < 4 ∧
      (execBatches ⟨true, false⟩
        [[⟨messageC.ENABLE_ROSPEC_RESPONSE, []⟩],
         [⟨messageC.RO_ACCESS_REPORT, []⟩],
         [⟨messageC.ENABLE_ROSPEC_RESPONSE, []⟩]])[k]? =
        some (Ev.setStart false) :=
  (C1_start_dedup ⟨true, false⟩
    [[⟨messageC.ENABLE_ROSPEC_RESPONSE, []⟩],
     [⟨messageC.RO_ACCESS_REPORT, []⟩],
     [⟨messageC.ENABLE_ROSPEC_RESPONSE, []⟩]]).2.1 1 4
    (by omega) (by decide) (by decide)

/-- C2: configuration idempotence.  Over any sequence of transport
deliveries on one connection, no dispatch operation ever clears
`isReaderConfigSet`; it is set true at most once (and never again if it
was already true), and the configure-reader command is written at most
once (and never once the flag is true). -/
theorem C2_config_idempotent (s : SessionState) (batches : List (List Message)) :
    countEv (Ev.setConfig false) (execBatches s batches) = 0 ∧
    countEv (Ev.setConfig true) (execBatches s batches) ≤
      (if s.isReaderConfigSet then 0 else 1) ∧
    countEv (Ev.write bSetReaderConfig) (execBatches s batches) ≤
      (if s.isReaderConfigSet then 0 else 1) :=
  ⟨countEv_wf_no_unsetConfig (wf_execBatches batches s),
   countEv_wf_setConfig (wf_execBatches batches s),
   countEv_wf_writeConfig (wf_execBatches batches s)⟩

theorem writesOf_append (t1 t2 : List Ev) :
    writesOf (t1 ++ t2) = writesOf t1 ++ writesOf t2 := by
  simp [writesOf, List.filterMap_append]

theorem writesOf_all_reset {l : List Ev} (h : ∀ e ∈ l, e = Ev.setStart false) :
    writesOf l = [] := by
  induction l with
  | nil => rfl
  | cons e l ih =>
    have he : e = Ev.setStart false := h e (List.mem_cons_self e l)
    subst he
    simp only [writesOf, List.filterMap_cons]
    exact ih (fun x hx => h x (List.mem_cons_of_mem _ hx))

theorem replay_resetEvents (s : SessionState) (params : List Parameter) :
    replay s (resetEvents params) =
      (if cycleEnd params then { s with isStartROSpecSent := false } else s) := by
  rw [replay_all_reset resetEvents_all]
  cases h : cycleEnd params
  · simp [resetEvents_eq_nil_iff.mpr h]
  · have hne : resetEvents params ≠ [] := by
      intro hnil
      rw [resetEvents_eq_nil_iff] at hnil
      simp [h] at hnil
    simp [hne]

theorem replay_resetEvents_config (s : SessionState) (params : List Parameter) :
    (replay s (resetEvents params)).isReaderConfigSet = s.isReaderConfigSet := by
  rw [replay_resetEvents]
  cases cycleEnd params <;> simp

theorem replay_resetEvents_start (s : SessionState) (params : List Parameter) :
    (replay s (resetEvents params)).isStartROSpecSent =
      (if cycleEnd params then false else s.isStartROSpecSent) := by
  rw [replay_resetEvents]
  cases cycleEnd params <;> simp

theorem setStart_false_mem_resetEvents {params : List Parameter}
    (h : cycleEnd params = true) : Ev.setStart false ∈ resetEvents params := by
  have hne : resetEvents params ≠ [] := by
    intro hnil
    rw [resetEvents_eq_nil_iff] at hnil
    simp [h] at hnil
  obtain ⟨e, he⟩ := List.exists_mem_of_ne_nil _ hne
  have heq := resetEvents_all e he
  rwa [heq] at he

theorem handleReaderNotification_eq (s : SessionState) (params : List Parameter) :
    handleReaderNotification s params =
      resetEvents params ++
        (if s.isReaderConfigSet = false
         then [Ev.write bSetReaderConfig, Ev.setConfig true]
         else sendStartROSpec (replay s (resetEvents params))) := by
  show resetEvents params ++ _ = _
  rw [replay_resetEvents_config]
  cases hc : s.isReaderConfigSet <;> simp

/-- C3: reader-event dispatch action.  For a reader-event notification
whose decoded parameters carry the cycle-end evidence (a flattened
event-notification parameter holding a read-spec-event sub-parameter whose
first byte equals the cycle-ended sentinel 1) the start flag is cleared;
afterwards, if the config flag is false, exactly the configure-reader
command is written and the config flag is set true (the start flag keeping
its post-reset value), otherwise a start-read-spec is attempted subject to
the `isStartROSpecSent` guard. -/
theorem C3_reader_event_dispatch (s : SessionState) (params : List Parameter) :
    (cycleEnd params = true →
      Ev.setStart false ∈ handleReaderNotification s params) ∧
    (s.isReaderConfigSet = false →
      writesOf (handleReaderNotification s params) = [bSetReaderConfig] ∧
      (replay s (handleReaderNotification s params)).isReaderConfigSet = true ∧
      (replay s (handleReaderNotification s params)).isStartROSpecSent =
        (if cycleEnd params then false else s.isStartROSpecSent)) ∧
    (s.isReaderConfigSet = true →
      (replay s (handleReaderNotification s params)).isReaderConfigSet = true ∧
      (replay s (handleReaderNotification s params)).isStartROSpecSent = true ∧
      writesOf (handleReaderNotification s params) =
        (if (cycleEnd params || !s.isStartROSpecSent)
         then [bStartRoSpec] else [])) := by
  refine ⟨?_, ?_, ?_⟩
  · intro h
    rw [handleReaderNotification_eq]
    exact List.mem_append_left _ (setStart_false_mem_resetEvents h)
  · intro hc
    rw [handleReaderNotification_eq, if_pos hc]
    refine ⟨?_, ?_, ?_⟩
    · rw [writesOf_append, writesOf_all_reset resetEvents_all]
      simp [writesOf]
    · rw [replay_append]
      simp [replay_cons, applyEv, replay_nil]
    · rw [replay_append, replay_cons, replay_cons]
      simp only [applyEv, replay_nil]
      rw [← replay_resetEvents_start s params]
  · intro hc
    rw [handleReaderNotification_eq, if_neg (by simp [hc])]
    have hconf := replay_resetEvents_config s params
    have hstart := replay_resetEvents_start s params
    cases hce : cycleEnd params
    · rw [hce] at hstart
      simp at hstart
      cases hst : s.isStartROSpecSent
      · rw [hst] at hstart
        refine ⟨?_, ?_, ?_⟩
        · rw [replay_append]
          simp [sendStartROSpec, hstart, replay_cons, applyEv, replay_nil, hconf, hc]
        · rw [replay_append]
          simp [sendStartROSpec, hstart, replay_cons, applyEv, replay_nil]
        · rw [writesOf_append, writesOf_all_reset resetEvents_all]
          simp [sendStartROSpec, hstart, writesOf]
      · rw [hst] at hstart
        refine ⟨?_, ?_, ?_⟩
        · rw [replay_append]
          simp [sendStartROSpec, hstart, replay_nil, hconf, hc]
        · rw [replay_append]
          simp [sendStartROSpec, hstart, replay_nil]
        · rw [writesOf_append, writesOf_all_reset resetEvents_all]
          simp [sendStartROSpec, hstart, writesOf]
    · rw [hce] at hstart
      simp at hstart
      refine ⟨?_, ?_, ?_⟩
      · rw [replay_append]
        simp [sendStartROSpec, hstart, replay_cons, applyEv, replay_nil, hconf, hc]
      · rw [replay_append]
        simp [sendStartROSpec, hstart, replay_cons, applyEv, replay_nil]
      · rw [writesOf_append, writesOf_all_reset resetEvents_all]
        simp [sendStartROSpec, hstart, writesOf]

/-- Witness for C3: a cycle-end reader-event notification processed with
both flags set clears and re-sets the start flag and writes exactly one
start-read-spec command. -/
theorem C3_reader_event_dispatch_witness :
    Ev.setStart false ∈
      handleReaderNotification ⟨true, true⟩
        [⟨parameterC.ReaderEventNotificationData, [],
          [⟨parameterC.ROSpecEvent, [1]⟩]⟩] ∧
    writesOf
      (handleReaderNotification ⟨true, true⟩
        [⟨parameterC.ReaderEventNotificationData, [],
          [⟨parameterC.ROSpecEvent, [1]⟩]⟩]) = [bStartRoSpec] :=
  ⟨(C3_reader_event_dispatch ⟨true, true⟩
      [⟨parameterC.ReaderEventNotificationData, [],
        [⟨parameterC.ROSpecEvent, [1]⟩]⟩]).1 (by decide),
   by
    have h := (C3_reader_event_dispatch ⟨true, true⟩
      [⟨parameterC.ReaderEventNotificationData, [],
        [⟨parameterC.ROSpecEvent, [1]⟩]⟩]).2.2 rfl
    rw [h.2.2]
    decide⟩

theorem foldl_properties_eq_find (l : List SubParameter)
    (acc : Nat → Option (List Nat)) (t : Nat) :
    (l.foldl (fun properties sp =>
        fun u => if u = sp.type then some sp.value else properties u) acc) t =
      (match l.reverse.find? (fun sp => sp.type == t) with
       | some sp => some sp.value
       | none => acc t) := by
  induction l generalizing acc with
  | nil => simp
  | cons sp l ih =>
    rw [List.foldl_cons, ih, List.reverse_cons, List.find?_append]
    cases hfind : List.find? (fun sp => sp.type == t) l.reverse with
    | some sp2 => simp [Option.or]
    | none =>
      by_cases h : sp.type = t
      · rw [List.find?_cons_of_pos _ (by simpa using h)]
        simp [Option.or, h]
      · rw [List.find?_cons_of_neg _ (by simpa using h)]
        simp [Option.or, List.find?_nil, Ne.symm h]

/-- C8: flattener last-write-wins.  For every decoded parameter the
flattened map sends a type code to the value bytes of the last sub-parameter
bearing that code (found by searching the reversed sub-parameter sequence),
and holds nothing for a code borne by no sub-parameter. -/
theorem C8_flattener_last_write_wins (p : Parameter) (t : Nat) :
    mapSubParameters p t =
      Option.map SubParameter.value
        (p.subParameters.reverse.find? (fun sp => sp.type == t)) ∧
    ((∀ sp ∈ p.subParameters, sp.type ≠ t) → mapSubParameters p t = none) := by
  have h := foldl_properties_eq_find p.subParameters (fun _ => none) t
  constructor
  · refine h.trans ?_
    cases List.find? (fun sp => sp.type == t) p.subParameters.reverse <;> simp
  · intro hall
    have hnone : List.find? (fun sp => sp.type == t) p.subParameters.reverse = none := by
      rw [List.find?_eq_none]
      intro sp hsp
      simpa using hall sp (List.mem_reverse.mp hsp)
    refine h.trans ?_
    rw [hnone]

/-- Witness for C8: with duplicate sub-parameter type codes the later entry
wins, and a code borne by no sub-parameter is absent from the map. -/
theorem C8_flattener_last_write_wins_witness :
    mapSubParameters ⟨0, [], [⟨5, [1]⟩, ⟨5, [2]⟩, ⟨7, [9]⟩]⟩ 5 = some [2] ∧
    mapSubParameters ⟨0, [], [⟨5, [1]⟩, ⟨5, [2]⟩, ⟨7, [9]⟩]⟩ 6 = none :=
  ⟨by
    rw [(C8_flattener_last_write_wins ⟨0, [], [⟨5, [1]⟩, ⟨5, [2]⟩, ⟨7, [9]⟩]⟩ 5).1]
    decide,
   (C8_flattener_last_write_wins ⟨0, [], [⟨5, [1]⟩, ⟨5, [2]⟩, ⟨7, [9]⟩]⟩ 6).2
    (by decide)⟩

theorem hexDigit_lower : ∀ n : Nat, n < 16 → isHexLowerChar (hexDigit n) = true := by
  decide

theorem bufToHex_lower : ∀ {b : List Nat}, (∀ x ∈ b, x < 256) →
    (bufToHex b).data.all isHexLowerChar = true := by
  intro b
  induction b with
  | nil => intro _; rfl
  | cons x b ih =>
    intro h
    have hx : x < 256 := h x (List.mem_cons_self x b)
    have h1 : x / 16 < 16 := by omega
    have h2 : x % 16 < 16 := by omega
    have e3 := ih (fun y hy => h y (List.mem_cons_of_mem _ hy))
    show ((x :: b).flatMap
        (fun x => [hexDigit (x / 16), hexDigit (x % 16)])).all isHexLowerChar = true
    rw [List.flatMap_cons, List.all_append]
    have e3b : (b.flatMap
        (fun x => [hexDigit (x / 16), hexDigit (x % 16)])).all isHexLowerChar = true := e3
    simp [hexDigit_lower _ h1, hexDigit_lower _ h2, e3b]

/-- C4: tag extraction correctness.  When the flattened sub-parameters of a
tag-report-data parameter hold identifier bytes and count bytes, the
extracted observation carries exactly the lowercase hex encoding of the
identifier bytes and the big-endian 16-bit read of the count bytes. -/
theorem C4_tag_extraction (p : Parameter) (v c : List Nat)
    (hv : mapSubParameters p parameterC.EPC96 = some v)
    (hc : mapSubParameters p parameterC.TagSeenCount = some c)
    (hb : ∀ x ∈ v, x < 256) :
    extractTag p = ⟨some (bufToHex v), readUInt16BE c⟩ ∧
    (bufToHex v).data.all isHexLowerChar = true := by
  refine ⟨?_, bufToHex_lower hb⟩
  simp only [extractTag]
  rw [hv, hc]

/-- Witness for C4: identifier bytes AA BB CC DD EE FF with count bytes
00 02 yield the observation with tagID aabbccddeeff and seen count 2. -/
theorem C4_tag_extraction_witness :
    extractTag ⟨parameterC.TagReportData, [],
      [⟨parameterC.EPC96, [0xAA, 0xBB, 0xCC, 0xDD, 0xEE, 0xFF]⟩,
       ⟨parameterC.TagSeenCount, [0x00, 0x02]⟩]⟩ =
      ⟨some "aabbccddeeff", 2⟩ := by
  have h := (C4_tag_extraction
    ⟨parameterC.TagReportData, [],
      [⟨parameterC.EPC96, [0xAA, 0xBB, 0xCC, 0xDD, 0xEE, 0xFF]⟩,
       ⟨parameterC.TagSeenCount, [0x00, 0x02]⟩]⟩
    [0xAA, 0xBB, 0xCC, 0xDD, 0xEE, 0xFF] [0x00, 0x02]
    (by decide) (by decide) (by decide)).1
  rw [h]
  decide

/-- C7: missing-field defaults.  A tag-report-data parameter without a count
sub-parameter yields seen count 0; without an identifier sub-parameter the
tagID stays null and the observation is not published. -/
theorem C7_missing_field_defaults (p : Parameter) :
    (mapSubParameters p parameterC.TagSeenCount = none →
      (extractTag p).tagSeenCount = 0) ∧
    (mapSubParameters p parameterC.EPC96 = none →
      (extractTag p).tagID = none ∧ publishedTags [p] = []) := by
  constructor
  · intro h
    simp only [extractTag]
    rw [h]
  · intro h
    have h1 : (extractTag p).tagID = none := by
      simp only [extractTag]
      rw [h]
    refine ⟨h1, ?_⟩
    have ht : tagReportEvents [p] = [] := by
      by_cases hp : p.type == parameterC.TagReportData <;>
        simp [tagReportEvents, hp, h1, tagTruthy]
    simp [publishedTags, ht]

/-- Witness for C7: a tag-report-data parameter with no sub-parameters at
all extracts the default observation and publishes nothing. -/
theorem C7_missing_field_defaults_witness :
    (extractTag ⟨parameterC.TagReportData, [], []⟩).tagSeenCount = 0 ∧
    (extractTag ⟨parameterC.TagReportData, [], []⟩).tagID = none ∧
    publishedTags [⟨parameterC.TagReportData, [], []⟩] = [] :=
  ⟨(C7_missing_field_defaults ⟨parameterC.TagReportData, [], []⟩).1 (by decide),
   (C7_missing_field_defaults ⟨parameterC.TagReportData, [], []⟩).2 (by decide)⟩

/-- C10: empty identifier bytes.  When the identifier sub-parameter is
present with zero value bytes, the extracted tagID is the empty string —
not null — yet the observation is still suppressed, because publication
tests JavaScript truthiness of the tagID rather than non-null-ness. -/
theorem C10_empty_epc_suppressed (p : Parameter)
    (h : mapSubParameters p parameterC.EPC96 = some []) :
    (extractTag p).tagID = some "" ∧ (extractTag p).tagID ≠ none ∧
    publishedTags [p] = [] := by
  have h1 : (extractTag p).tagID = some "" := by
    simp only [extractTag]
    rw [h]
    decide
  refine ⟨h1, by rw [h1]; simp, ?_⟩
  have ht : tagReportEvents [p] = [] := by
    by_cases hp : p.type == parameterC.TagReportData <;>
      simp [tagReportEvents, hp, h1, tagTruthy]
  simp [publishedTags, ht]

/-- Witness for C10: a tag-report-data parameter whose identifier
sub-parameter has empty value bytes gets the non-null empty-string tagID
and is not published. -/
theorem C10_empty_epc_suppressed_witness :
    (extractTag ⟨parameterC.TagReportData, [], [⟨parameterC.EPC96, []⟩]⟩).tagID =
      some "" ∧
    (extractTag ⟨parameterC.TagReportData, [], [⟨parameterC.EPC96, []⟩]⟩).tagID ≠
      none ∧
    publishedTags [⟨parameterC.TagReportData, [], [⟨parameterC.EPC96, []⟩]⟩] = [] :=
  C10_empty_epc_suppressed ⟨parameterC.TagReportData, [], [⟨parameterC.EPC96, []⟩]⟩
    (by decide)

theorem dispatchLoop_cons (s : SessionState) (m : Message) (rest : List Message) :
    dispatchLoop s (m :: rest) =
      ((dispatchMessage s m).1 ++
        (dispatchLoop (replay s (dispatchMessage s m).1) rest).1,
       (dispatchMessage s m).2 ++
        (dispatchLoop (replay s (dispatchMessage s m).1) rest).2) := rfl

theorem execBatch_eq (s : SessionState) (msgs : List Message) :
    execBatch s msgs =
      (dispatchLoop s msgs).1 ++ runDeferred (dispatchLoop s msgs).2 := rfl

theorem specDispatchSeq_cons (s : SessionState) (m : Message) (rest : List Message) :
    specDispatchSeq s (m :: rest) =
      dispatchMessageFull s m ++
        specDispatchSeq (replay s (dispatchMessageFull s m)) rest := rfl

theorem dispatchMessage_snd_eq_nil {m : Message}
    (h : m.type ≠ messageC.RO_ACCESS_REPORT) (s : SessionState) :
    (dispatchMessage s m).2 = [] := by
  unfold dispatchMessage
  split_ifs
  any_goals rfl

theorem dispatchMessage_ro {m : Message}
    (h : m.type = messageC.RO_ACCESS_REPORT) (s : SessionState) :
    dispatchMessage s m = ([], [m]) := by
  unfold dispatchMessage
  rw [h]
  simp [messageC.READER_EVENT_NOTIFICATION, messageC.SET_READER_CONFIG_RESPONSE,
    messageC.ADD_ROSPEC_RESPONSE, messageC.ENABLE_ROSPEC_RESPONSE,
    messageC.START_ROSPEC_RESPONSE, messageC.RO_ACCESS_REPORT, messageC.KEEPALIVE]

theorem execBatch_eq_seq_of_no_ro : ∀ {msgs : List Message},
    (∀ m ∈ msgs, m.type ≠ messageC.RO_ACCESS_REPORT) → ∀ s : SessionState,
    execBatch s msgs = specDispatchSeq s msgs := by
  intro msgs
  induction msgs with
  | nil => intro _ s; rfl
  | cons m rest ih =>
    intro h s
    have hm := h m (List.mem_cons_self m rest)
    have h2 := dispatchMessage_snd_eq_nil hm s
    have hfull : dispatchMessageFull s m = (dispatchMessage s m).1 := by
      unfold dispatchMessageFull
      rw [h2]
      simp [runDeferred]
    rw [execBatch_eq, dispatchLoop_cons]
    simp only [h2, List.nil_append, List.append_assoc]
    rw [← execBatch_eq, specDispatchSeq_cons, hfull]
    rw [ih (fun x hx => h x (List.mem_cons_of_mem _ hx))
      (replay s (dispatchMessage s m).1)]

theorem dispatchLoop_deferred_eq_filter (msgs : List Message) :
    ∀ s : SessionState,
    (dispatchLoop s msgs).2 =
      msgs.filter (fun m => m.type == messageC.RO_ACCESS_REPORT) := by
  induction msgs with
  | nil => intro s; rfl
  | cons m rest ih =>
    intro s
    rw [dispatchLoop_cons]
    by_cases h : m.type = messageC.RO_ACCESS_REPORT
    · rw [dispatchMessage_ro h]
      simp [ih, List.filter_cons, h, replay_nil]
    · rw [dispatchMessage_snd_eq_nil h]
      simp [ih, List.filter_cons, h]

/-- Counterexample to C5 as stated: processing the single delivery
tag-report then enable-read-spec-response from a session with both flags
set differs from the sequential composition of complete per-message
actions, because the whole tag-report handler (its start-flag reset
included) is deferred past the rest of the batch: the deferred semantics
writes nothing, while the claimed per-message semantics would clear the
flag first and then write a start-read-spec. -/
theorem C5_batch_ordering_cex :
    execBatch ⟨true, true⟩
        [⟨messageC.RO_ACCESS_REPORT, []⟩, ⟨messageC.ENABLE_ROSPEC_RESPONSE, []⟩] ≠
      specDispatchSeq ⟨true, true⟩
        [⟨messageC.RO_ACCESS_REPORT, []⟩, ⟨messageC.ENABLE_ROSPEC_RESPONSE, []⟩] ∧
    writesOf (execBatch ⟨true, true⟩
        [⟨messageC.RO_ACCESS_REPORT, []⟩, ⟨messageC.ENABLE_ROSPEC_RESPONSE, []⟩]) =
      [] ∧
    writesOf (specDispatchSeq ⟨true, true⟩
        [⟨messageC.RO_ACCESS_REPORT, []⟩, ⟨messageC.ENABLE_ROSPEC_RESPONSE, []⟩]) =
      [bStartRoSpec] := by
  decide

/-- C5 (amended): within one transport delivery the decoded messages are
dispatched strictly in order; for every message that is not a tag report
the complete action runs before the next message is dispatched — a batch
containing no tag report behaves exactly as the sequential composition of
complete per-message actions — while tag-report actions are deferred, in
message order, until after the whole batch. -/
theorem C5_batch_ordering_amended (s : SessionState) (msgs : List Message) :
    ((∀ m ∈ msgs, m.type ≠ messageC.RO_ACCESS_REPORT) →
      execBatch s msgs = specDispatchSeq s msgs) ∧
    (dispatchLoop s msgs).2 =
      msgs.filter (fun m => m.type == messageC.RO_ACCESS_REPORT) :=
  ⟨fun h => execBatch_eq_seq_of_no_ro h s,
   dispatchLoop_deferred_eq_filter msgs s⟩

/-- Witness for the amended C5: a keepalive followed by an
enable-read-spec-response runs identically under the deferred and the
sequential semantics. -/
theorem C5_batch_ordering_amended_witness :
    execBatch ⟨true, true⟩
        [⟨messageC.KEEPALIVE, []⟩, ⟨messageC.ENABLE_ROSPEC_RESPONSE, []⟩] =
      specDispatchSeq ⟨true, true⟩
        [⟨messageC.KEEPALIVE, []⟩, ⟨messageC.ENABLE_ROSPEC_RESPONSE, []⟩] :=
  (C5_batch_ordering_amended ⟨true, true⟩
      [⟨messageC.KEEPALIVE, []⟩, ⟨messageC.ENABLE_ROSPEC_RESPONSE, []⟩]).1
    (by decide)

/-- Counterexample to C6 as stated: an empty (but non-null) chunk is handed
to the decoder — the source only skips decoding for null/undefined data —
so for the empty chunk a decode attempt is made, contradicting the claim. -/
theorem C6_empty_data_cex :
    ¬ ((onData (fun _ => []) ⟨false, false⟩ (some [])).decodeAttempted = false) := by
  decide

/-- C6 (amended): a null/undefined chunk is dropped before decoding with no
write, no event and no state change; an empty chunk is passed to the
decoder, and — the decoder yielding no messages on empty input — likewise
produces no write, no event and no state change. -/
theorem C6_empty_data_amended (dec : List Nat → List Message) (s : SessionState) :
    onData dec s none = ⟨s, [], false⟩ ∧
    (dec [] = [] → onData dec s (some []) = ⟨s, [], true⟩) := by
  constructor
  · rfl
  · intro h
    show (⟨replay s (execBatch s (dec [])), execBatch s (dec []), true⟩ : DataResult) =
      ⟨s, [], true⟩
    rw [h]
    rfl

/-- Witness for the amended C6 at a concrete decoder and session state. -/
theorem C6_empty_data_amended_witness :
    onData (fun _ => []) ⟨false, false⟩ none = ⟨⟨false, false⟩, [], false⟩ ∧
    onData (fun _ => []) ⟨false, false⟩ (some []) = ⟨⟨false, false⟩, [], true⟩ :=
  ⟨(C6_empty_data_amended (fun _ => []) ⟨false, false⟩).1,
   (C6_empty_data_amended (fun _ => []) ⟨false, false⟩).2 rfl⟩

/-- Counterexample to C9 as stated: two configurations agreeing on target
address, target port and logging flag, but differing in the
isReaderConfigSet field the constructor also reads, behave differently on
the same inbound delivery: one writes the configure-reader command, the
other a start-read-spec. -/
theorem C9_config_surface_cex :
    effAddress ⟨none, none, none, none, none⟩ =
      effAddress ⟨none, none, none, some true, none⟩ ∧
    effPort ⟨none, none, none, none, none⟩ =
      effPort ⟨none, none, none, some true, none⟩ ∧
    effLog ⟨none, none, none, none, none⟩ =
      effLog ⟨none, none, none, some true, none⟩ ∧
    sessionTrace ⟨none, none, none, none, none⟩
        [[⟨messageC.READER_EVENT_NOTIFICATION, []⟩]] ≠
      sessionTrace ⟨none, none, none, some true, none⟩
        [[⟨messageC.READER_EVENT_NOTIFICATION, []⟩]] := by
  refine ⟨rfl, rfl, rfl, ?_⟩
  decide

/-- C9 (amended): the dispatch behaviour of a session is determined by the
two flag fields the constructor reads off the configuration
(isReaderConfigSet and isStartROSpecSent, both defaulted to false);
configurations agreeing on those two — whatever their address, port or
logging flag — behave identically on every inbound message sequence. -/
theorem C9_config_surface_amended (c1 c2 : Config)
    (hc : c1.isReaderConfigSet.getD false = c2.isReaderConfigSet.getD false)
    (hs : c1.isStartROSpecSent.getD false = c2.isStartROSpecSent.getD false)
    (batches : List (List Message)) :
    sessionTrace c1 batches = sessionTrace c2 batches := by
  unfold sessionTrace initSession
  rw [hc, hs]

/-- Witness for the amended C9: configurations with different addresses,
ports and logging flags but equal effective flag fields produce the same
trace. -/
theorem C9_config_surface_amended_witness :
    sessionTrace ⟨some "10.0.0.1", some 1, some true, none, none⟩
        [[⟨messageC.KEEPALIVE, []⟩]] =
      sessionTrace ⟨none, none, none, some false, some false⟩
        [[⟨messageC.KEEPALIVE, []⟩]] :=
  C9_config_surface_amended
    ⟨some "10.0.0.1", some 1, some true, none, none⟩
    ⟨none, none, none, some false, some false⟩ rfl rfl
    [[⟨messageC.KEEPALIVE, []⟩]]

end LLRP
